import Mathlib

/-!
Journeys API, the create-journey endpoint.

A shallow embedding of `api/endpoint/create_journey.go` and `api/app/app.go`.

Go pointers that may be nil are `Option`s, a panic is the `Except.error` side of
a result, and the effects of a call (records handed to a logger, identifiers
drawn from the generator) are threaded through an explicit `World`.
-/

namespace Journeys

/-! ## Identifiers (`github.com/google/uuid`) -/

/-- Modelled from the spec: the identifier type of the uuid package,
`type UUID [16]byte`: sixteen bytes. -/
structure UUID where
  bytes : List (Fin 256)
  size : bytes.length = 16
deriving DecidableEq

/-- Modelled from the spec: the lowercase digit table `"0123456789abcdef"` that
`hex.Encode` reads. -/
def hextable : List Char :=
  ['0', '1', '2', '3', '4', '5', '6', '7', '8', '9', 'a', 'b', 'c', 'd', 'e', 'f']

/-- Modelled from the spec: one digit of the table; `n` is a nibble, so the
default is never used. -/
def hexDigit (n : Nat) : Char :=
  hextable.getD n '0'

/-- Modelled from the spec: `hex.Encode` of the Go standard library, which the
identifier's textual form is built from; two lowercase digits per byte, high
nibble first. -/
def hexEncode : List (Fin 256) → List Char
  | [] => []
  | b :: bs => hexDigit (b.val / 16) :: hexDigit (b.val % 16) :: hexEncode bs

/-- Modelled from the spec: `encodeHex` of the uuid package, the canonical
8-4-4-4-12 textual form ("UUID-v4 textual representation"). -/
def encodeHex (u : UUID) : List Char :=
  hexEncode (u.bytes.take 4) ++ '-' ::
  (hexEncode ((u.bytes.drop 4).take 2) ++ '-' ::
  (hexEncode ((u.bytes.drop 6).take 2) ++ '-' ::
  (hexEncode ((u.bytes.drop 8).take 2) ++ '-' ::
  hexEncode (u.bytes.drop 10))))

/-- Modelled from the spec: `UUID.String`, the textual form as a Go string. -/
def UUID.String (u : UUID) : String :=
  String.mk (encodeHex u)

/-- A character of `0-9a-f`. -/
def isLowerHex (c : Char) : Bool :=
  ('0' ≤ c && c ≤ '9') || ('a' ≤ c && c ≤ 'f')

/-- Syntactic validity of a textual UUID: 36 characters, a hyphen at positions
8, 13, 18 and 23, a lowercase hexadecimal digit everywhere else. -/
def validUuidText (s : String) : Prop :=
  s.length = 36 ∧
  ∀ i, i < 36 →
    if i = 8 ∨ i = 13 ∨ i = 18 ∨ i = 23 then s.data.get? i = some '-'
    else ∃ c, s.data.get? i = some c ∧ isLowerHex c = true

/-! ## Logging (`log/slog`) and the world -/

/-- Modelled from the spec: Go `context.Context`, reduced to the cancellation
it carries; the handler only forwards it to the logger. -/
structure Context where
  done : Bool
deriving DecidableEq, Repr

/-- Modelled from the spec: the levels of `log/slog`. -/
inductive Level where
  | debug | info | warn | error
deriving DecidableEq, Repr

/-- Modelled from the spec: a `*slog.Logger` that is not nil, the "logger
reference" of a handler, identified by the name it was made with. -/
structure Logger where
  name : String
deriving DecidableEq, Repr

/-- One call to a logger: which logger, at what level, with what message and
string attributes. -/
structure LogRecord where
  logger : Logger
  level : Level
  msg : String
  attrs : List (String × String)
deriving DecidableEq, Repr

/-- Everything a call can observe or change outside its arguments: the
identifier generator (its successive outputs and how many were drawn) and the
records handed to loggers, oldest first. -/
structure World where
  uuids : Nat → UUID
  drawn : Nat
  log : List LogRecord

/-- Modelled from the spec: `uuid.New`, the "opaque unique-ID provider"; each
call takes the next output of the generator. -/
def uuid.New (w : World) : UUID × World :=
  (w.uuids w.drawn, { w with drawn := w.drawn + 1 })

/-- Modelled from the spec: `humus.Logger`, the logger reference a handler is
built with. -/
def humus.Logger (name : String) : Option Logger :=
  some { name := name }

/-- Modelled from the spec: `slog.String(key, value)`, a string attribute. -/
def slog.String (key value : String) : String × String :=
  (key, value)

/-- Modelled from the spec: `(*slog.Logger).InfoContext`, which hands one record
at level info to the logger. -/
def Logger.InfoContext (l : Logger) (_ctx : Context) (msg : String)
    (attrs : List (String × String)) (w : World) : World :=
  { w with log := w.log ++ [{ logger := l, level := Level.info, msg := msg, attrs := attrs }] }

/-! ## Errors and panics -/

deriving instance DecidableEq for Except

/-- Modelled from the spec: the error taxonomy of the request pipeline. -/
inductive Error where
  | routeConflict (method path : String)
  | decode (msg : String)
  | encode (msg : String)
  | handler (status : Option Nat) (msg : String)
  | notFound (method path : String)
  | methodNotAllowed (method path : String)
deriving DecidableEq, Repr

/-- What a Go panic carries. -/
inductive Panic where
  | nilDereference
  | value (err : Error)
deriving DecidableEq, Repr

/-! ## `api/endpoint/create_journey.go` -/

/-- `type CreateJourneyHandler struct { log *slog.Logger }`. -/
structure CreateJourneyHandler where
  log : Option Logger
deriving DecidableEq, Repr

/-- Modelled from the spec: the timestamp type, Go `time.Time`, as its civil
fields and zone offset in minutes. -/
structure Time where
  year : Nat
  month : Nat
  day : Nat
  hour : Nat
  minute : Nat
  second : Nat
  nano : Nat
  offset : Int
deriving DecidableEq, Repr

/-- Modelled from the spec: the zero `time.Time`, January 1, year 1, 00:00:00 UTC. -/
def Time.zero : Time :=
  { year := 1, month := 1, day := 1, hour := 0, minute := 0, second := 0, nano := 0, offset := 0 }

/-- `type CreateJourneyRequest struct`, four fields. -/
structure CreateJourneyRequest where
  Name : String
  TrackingEnabled : Bool
  StartDate : Time
  EndDate : Time
deriving DecidableEq, Repr

/-- `type CreateJourneyResponse struct { Id string }`. -/
structure CreateJourneyResponse where
  Id : String
deriving DecidableEq, Repr

/-- How a call of `Handle` ends: the receiver and the world after the call,
and either a panic or the returned pair `(*CreateJourneyResponse, error)`. -/
structure HandleExit where
  self : CreateJourneyHandler
  world : World
  result : Except Panic (Option CreateJourneyResponse × Option Error)

/-- `func (h *CreateJourneyHandler) Handle(ctx, req)`: evaluates `req.Name`
(a nil `req` panics), logs through `h.log` (a nil logger panics), draws an
identifier and returns it with a nil error. -/
def CreateJourneyHandler.Handle (h : CreateJourneyHandler) (ctx : Context)
    (req : Option CreateJourneyRequest) (w : World) : HandleExit :=
  match req with
  | none => { self := h, world := w, result := .error Panic.nilDereference }
  | some r =>
    match h.log with
    | none => { self := h, world := w, result := .error Panic.nilDereference }
    | some l =>
      let w1 := l.InfoContext ctx "Handling Request" [slog.String "Name" r.Name] w
      let (id, w2) := uuid.New w1
      let resp : CreateJourneyResponse := { Id := id.String }
      { self := h, world := w2, result := .ok (some resp, none) }

/-! ## Wrappers of `humus/rest/rpc` and the router of `humus/rest` -/

/-- Modelled from the spec: what `rpc.ReturnJson(h)` makes: the handler, its
response written as JSON. -/
structure rpc.ReturnJsonHandler where
  inner : CreateJourneyHandler
deriving DecidableEq, Repr

/-- Modelled from the spec: what `rpc.ConsumeJson(h)` makes: the wrapped
handler, its request read from JSON. -/
structure rpc.ConsumeJsonHandler where
  inner : rpc.ReturnJsonHandler
deriving DecidableEq, Repr

/-- Modelled from the spec: an operation, "the bound unit of (input codec,
handler, output codec) serving one route". -/
structure rpc.Operation where
  handler : rpc.ConsumeJsonHandler
deriving DecidableEq, Repr

/-- Modelled from the spec: `rpc.ReturnJson`. -/
def rpc.ReturnJson (h : CreateJourneyHandler) : rpc.ReturnJsonHandler :=
  { inner := h }

/-- Modelled from the spec: `rpc.ConsumeJson`. -/
def rpc.ConsumeJson (h : rpc.ReturnJsonHandler) : rpc.ConsumeJsonHandler :=
  { inner := h }

/-- Modelled from the spec: `rpc.NewOperation`. -/
def rpc.NewOperation (h : rpc.ConsumeJsonHandler) : rpc.Operation :=
  { handler := h }

/-- Modelled from the spec: the constant `http.MethodPost`. -/
def http.MethodPost : String := "POST"

/-- Modelled from the spec: the constant `http.MethodGet`. -/
def http.MethodGet : String := "GET"

/-- Modelled from the spec: one entry of the route table, a (method, path) pair
and its operation. -/
structure rest.Entry where
  method : String
  path : String
  op : rpc.Operation
deriving DecidableEq, Repr

/-- Modelled from the spec: the state behind a `*rest.Api`: title and version
metadata and the route table in registration order. -/
structure rest.Api where
  title : String
  version : String
  routes : List rest.Entry
deriving DecidableEq, Repr

/-- Modelled from the spec: whether the exact (method, path) pair is in the
route table. -/
def rest.Api.registered (api : rest.Api) (method path : String) : Bool :=
  api.routes.any (fun e => e.method = method ∧ e.path = path)

/-- Modelled from the spec: `(*rest.Api).Route`, the router's `Register`; it
"fails (RouteConflictError) if the exact (method, path) pair is already
registered" and otherwise adds the entry. The pair returned is the state of
the api after the call and the returned error. -/
def rest.Api.Route (api : rest.Api) (method path : String) (op : rpc.Operation) :
    rest.Api × Option Error :=
  if api.registered method path then
    (api, some (Error.routeConflict method path))
  else
    ({ api with routes := api.routes ++ [{ method := method, path := path, op := op }] }, none)

/-- Modelled from the spec: the router's `Dispatch`; exact match on the pair,
a known path under another method is "method not allowed", anything else is
"not found". -/
def rest.Api.Dispatch (api : rest.Api) (method path : String) : Except Error rpc.Operation :=
  match api.routes.find? (fun e => e.method = method ∧ e.path = path) with
  | some e => .ok e.op
  | none =>
    if api.routes.any (fun e => e.path = path) then .error (Error.methodNotAllowed method path)
    else .error (Error.notFound method path)

/-- How `CreateJourney` ends: the state of the api after the call and the
panic value, if it panicked instead of returning. -/
structure SetupExit where
  api : rest.Api
  panic : Option Panic
deriving DecidableEq, Repr

/-- The operation `CreateJourney` builds around its handler. -/
def createJourneyOperation : rpc.Operation :=
  rpc.NewOperation (rpc.ConsumeJson (rpc.ReturnJson { log := humus.Logger "endpoint" }))

/-- `func CreateJourney(api *rest.Api)`: builds the handler, registers it
under POST /v1/journey and panics with the error of `api.Route`, if any. -/
def CreateJourney (api : rest.Api) : SetupExit :=
  let h : CreateJourneyHandler := { log := humus.Logger "endpoint" }
  let (api1, err) := api.Route http.MethodPost "/v1/journey"
    (rpc.NewOperation (rpc.ConsumeJson (rpc.ReturnJson h)))
  match err with
  | some e => { api := api1, panic := some (Panic.value e) }
  | none => { api := api1, panic := none }

/-! ## `api/app/app.go` -/

/-- Modelled from the spec: the `OpenApi` section of `rest.Config`, the
title and version metadata. -/
structure rest.OpenApiConfig where
  Title : String
  Version : String
deriving DecidableEq, Repr

/-- Modelled from the spec: `rest.Config`, reduced to the section `Init` reads. -/
structure rest.Config where
  OpenApi : rest.OpenApiConfig
deriving DecidableEq, Repr

/-- `type Config struct { rest.Config }`. -/
structure app.Config extends rest.Config
deriving DecidableEq, Repr

/-- `func Init(ctx, cfg) (*rest.Api, error)`: makes the api with `rest.NewApi`
(a parameter here: the constructor is not part of this repository), registers
the endpoint and returns the api with a nil error; a panic of `CreateJourney`
propagates. -/
def app.Init (NewApi : String → String → rest.Api) (_ctx : Context) (cfg : app.Config) :
    Except Panic (rest.Api × Option Error) :=
  let api := NewApi cfg.OpenApi.Title cfg.OpenApi.Version
  let out := CreateJourney api
  match out.panic with
  | some p => .error p
  | none => .ok (out.api, none)

/-! ## Codec layer: the JSON text format -/

/-- Modelled from the spec: a value of the JSON format; a number keeps its
lexeme. -/
inductive Json where
  | null
  | bool (b : Bool)
  | num (lexeme : String)
  | str (s : String)
  | arr (items : List Json)
  | obj (members : List (String × Json))

/-- Modelled from the spec: drops leading JSON whitespace. -/
def skipWs : List Char → List Char
  | c :: cs => if c = ' ' ∨ c = '\t' ∨ c = '\n' ∨ c = '\r' then skipWs cs else c :: cs
  | [] => []

/-- Modelled from the spec: the value of a hexadecimal digit of either case. -/
def hexVal (c : Char) : Option Nat :=
  if '0' ≤ c ∧ c ≤ '9' then some (c.toNat - 48)
  else if 'a' ≤ c ∧ c ≤ 'f' then some (c.toNat - 87)
  else if 'A' ≤ c ∧ c ≤ 'F' then some (c.toNat - 55)
  else none

/-- Modelled from the spec: the code unit written by the four digits of a `\u`
escape. -/
def hex4 (a b c d : Char) : Option Nat :=
  match hexVal a, hexVal b, hexVal c, hexVal d with
  | some x, some y, some z, some t => some (((x * 16 + y) * 16 + z) * 16 + t)
  | _, _, _, _ => none

/-- Modelled from the spec: the characters read so far once a high surrogate
that was waiting for its low half has found none: it becomes U+FFFD. -/
def flushSurrogate (acc : List Char) (pending : Option Nat) : List Char :=
  match pending with
  | some _ => Char.ofNat 0xFFFD :: acc
  | none => acc

/-- Modelled from the spec: the string production of the JSON format. Reads a
string body up to its closing quote, `acc` holding the characters read so far
in reverse and `pending` the high surrogate of a `\u` escape read just before.
An escaped surrogate pair is the one code point it encodes, a surrogate
without its other half is U+FFFD. -/
def parseString : List Char → List Char → Option Nat → Option (String × List Char)
  | [], _, _ => none
  | '"' :: rest, acc, pending => some (String.mk (flushSurrogate acc pending).reverse, rest)
  | '\\' :: 'u' :: a :: b :: c :: d :: rest, acc, pending =>
    match hex4 a b c d with
    | none => none
    | some n =>
      if 0xDC00 ≤ n ∧ n ≤ 0xDFFF then
        match pending with
        | some hi =>
          parseString rest
            (Char.ofNat (0x10000 + (hi - 0xD800) * 0x400 + (n - 0xDC00)) :: acc) none
        | none => parseString rest (Char.ofNat 0xFFFD :: acc) none
      else if 0xD800 ≤ n ∧ n ≤ 0xDBFF then
        parseString rest (flushSurrogate acc pending) (some n)
      else parseString rest (Char.ofNat n :: flushSurrogate acc pending) none
  | '\\' :: e :: rest, acc, pending =>
    match e with
    | '"' => parseString rest ('"' :: flushSurrogate acc pending) none
    | '\\' => parseString rest ('\\' :: flushSurrogate acc pending) none
    | '/' => parseString rest ('/' :: flushSurrogate acc pending) none
    | 'b' => parseString rest ('\x08' :: flushSurrogate acc pending) none
    | 'f' => parseString rest ('\x0c' :: flushSurrogate acc pending) none
    | 'n' => parseString rest ('\n' :: flushSurrogate acc pending) none
    | 'r' => parseString rest ('\r' :: flushSurrogate acc pending) none
    | 't' => parseString rest ('\t' :: flushSurrogate acc pending) none
    | _ => none
  | c :: rest, acc, pending =>
    if c.toNat < 32 then none else parseString rest (c :: flushSurrogate acc pending) none

/-- Modelled from the spec: splits off the leading decimal digits. -/
def takeDigits : List Char → List Char × List Char
  | [] => ([], [])
  | c :: cs =>
    if c.isDigit then
      let (ds, rest) := takeDigits cs
      (c :: ds, rest)
    else ([], c :: cs)

/-- Modelled from the spec: the number production of the JSON format,
`-? int frac? exp?`; returns the lexeme and what follows it. -/
def parseNumber (cs : List Char) : Option (List Char × List Char) :=
  let (sign, cs1) := match cs with
    | '-' :: r => (['-'], r)
    | _ => ([], cs)
  let (int, cs2) := takeDigits cs1
  if int = [] ∨ (1 < int.length ∧ int.head? = some '0') then none
  else
    let frac : Option (List Char × List Char) := match cs2 with
      | '.' :: r =>
        let (ds, r1) := takeDigits r
        if ds = [] then none else some ('.' :: ds, r1)
      | _ => some ([], cs2)
    match frac with
    | none => none
    | some (fr, cs3) =>
      match cs3 with
      | e :: r =>
        if e = 'e' ∨ e = 'E' then
          let (sg, r1) := match r with
            | '+' :: t => (['+'], t)
            | '-' :: t => (['-'], t)
            | _ => ([], r)
          let (ds, r2) := takeDigits r1
          if ds = [] then none else some (sign ++ int ++ fr ++ e :: sg ++ ds, r2)
        else some (sign ++ int ++ fr, cs3)
      | [] => some (sign ++ int ++ fr, [])

mutual
/-- Modelled from the spec: the value production of the JSON format; `fuel`
bounds the nesting and the number of elements read. -/
def parseValue : Nat → List Char → Option (Json × List Char)
  | 0, _ => none
  | fuel + 1, cs =>
    match skipWs cs with
    | 'n' :: 'u' :: 'l' :: 'l' :: rest => some (Json.null, rest)
    | 't' :: 'r' :: 'u' :: 'e' :: rest => some (Json.bool true, rest)
    | 'f' :: 'a' :: 'l' :: 's' :: 'e' :: rest => some (Json.bool false, rest)
    | '"' :: rest =>
      match parseString rest [] none with
      | some (s, rest1) => some (Json.str s, rest1)
      | none => none
    | '[' :: rest =>
      match skipWs rest with
      | ']' :: rest1 => some (Json.arr [], rest1)
      | _ =>
        match parseElements fuel rest with
        | some (items, rest1) => some (Json.arr items, rest1)
        | none => none
    | '\x7b' :: rest =>
      match skipWs rest with
      | '\x7d' :: rest1 => some (Json.obj [], rest1)
      | _ =>
        match parseMembers fuel rest with
        | some (members, rest1) => some (Json.obj members, rest1)
        | none => none
    | c :: rest =>
      if c = '-' ∨ c.isDigit then
        match parseNumber (c :: rest) with
        | some (lexeme, rest1) => some (Json.num (String.mk lexeme), rest1)
        | none => none
      else none
    | [] => none
/-- Modelled from the spec: the elements of an array after its opening bracket,
up to and including the closing one. -/
def parseElements : Nat → List Char → Option (List Json × List Char)
  | 0, _ => none
  | fuel + 1, cs =>
    match parseValue fuel cs with
    | none => none
    | some (v, rest) =>
      match skipWs rest with
      | ',' :: rest1 =>
        match parseElements fuel rest1 with
        | some (vs, rest2) => some (v :: vs, rest2)
        | none => none
      | ']' :: rest1 => some ([v], rest1)
      | _ => none
/-- Modelled from the spec: the members of an object after its opening brace,
up to and including the closing one. -/
def parseMembers : Nat → List Char → Option (List (String × Json) × List Char)
  | 0, _ => none
  | fuel + 1, cs =>
    match skipWs cs with
    | '"' :: rest =>
      match parseString rest [] none with
      | none => none
      | some (key, rest1) =>
        match skipWs rest1 with
        | ':' :: rest2 =>
          match parseValue fuel rest2 with
          | none => none
          | some (v, rest3) =>
            match skipWs rest3 with
            | ',' :: rest4 =>
              match parseMembers fuel rest4 with
              | some (ms, rest5) => some ((key, v) :: ms, rest5)
              | none => none
            | '\x7d' :: rest4 => some ([(key, v)], rest4)
            | _ => none
        | _ => none
    | _ => none
end

/-- Modelled from the spec: whether and as what a body is "well-formed for the
structured format": one JSON value between optional whitespace. The fuel is
twice the length and two: of two calls in a row along a chain of calls, one
reads a character. -/
def parseJson (body : String) : Option Json :=
  match parseValue (2 * body.length + 2) body.data with
  | some (v, rest) => if skipWs rest = [] then some v else none
  | none => none

/-! ## Codec layer: timestamps -/

/-- Modelled from the spec: the value of a decimal digit. -/
def digitVal (c : Char) : Option Nat :=
  if c.isDigit then some (c.toNat - 48) else none

/-- Modelled from the spec: the value of two decimal digits. -/
def num2 (a b : Char) : Option Nat :=
  match digitVal a, digitVal b with
  | some x, some y => some (x * 10 + y)
  | _, _ => none

/-- Modelled from the spec: the value of four decimal digits. -/
def num4 (a b c d : Char) : Option Nat :=
  match num2 a b, num2 c d with
  | some x, some y => some (x * 100 + y)
  | _, _ => none

/-- Modelled from the spec: days of a month of the Gregorian calendar. -/
def daysIn (year month : Nat) : Nat :=
  if month = 2 then
    if year % 4 = 0 ∧ (year % 100 ≠ 0 ∨ year % 400 = 0) then 29 else 28
  else if month = 4 ∨ month = 6 ∨ month = 9 ∨ month = 11 then 30
  else 31

/-- Modelled from the spec: nanoseconds written by the digits of a fractional
second: the first nine digits, padded with zeros on the right. -/
def nanosOf (ds : List Char) : Nat :=
  ((ds ++ List.replicate 9 '0').take 9).foldl (fun n c => n * 10 + (c.toNat - 48)) 0

/-- Modelled from the spec: the zone of a timestamp, `Z` or `±hh:mm`, in minutes
east of UTC. -/
def parseZone : List Char → Option Int
  | ['Z'] => some 0
  | [s, a, b, ':', c, d] =>
    match num2 a b, num2 c d with
    | some h, some m =>
      if h < 24 ∧ m < 60 then
        if s = '+' then some (Int.ofNat (h * 60 + m))
        else if s = '-' then some (- Int.ofNat (h * 60 + m))
        else none
      else none
    | _, _ => none
  | _ => none

/-- Modelled from the spec: the conversion of a field's text to the timestamp
type, in the date-time form of the spec's example (`2024-01-01T00:00:00Z`,
RFC 3339): `none` is the "malformed timestamp" of the spec. -/
def parseTime (s : String) : Option Time :=
  match s.data with
  | y1 :: y2 :: y3 :: y4 :: '-' :: m1 :: m2 :: '-' :: d1 :: d2 :: 'T' ::
      h1 :: h2 :: ':' :: n1 :: n2 :: ':' :: s1 :: s2 :: rest =>
    match num4 y1 y2 y3 y4, num2 m1 m2, num2 d1 d2, num2 h1 h2, num2 n1 n2, num2 s1 s2 with
    | some year, some month, some day, some hour, some minute, some second =>
      if 1 ≤ month ∧ month ≤ 12 ∧ 1 ≤ day ∧ day ≤ daysIn year month ∧
          hour < 24 ∧ minute < 60 ∧ second < 60 then
        let frac : Option (Nat × List Char) := match rest with
          | '.' :: r =>
            let (ds, r1) := takeDigits r
            if ds = [] then none else some (nanosOf ds, r1)
          | _ => some (0, rest)
        match frac with
        | none => none
        | some (nano, zone) =>
          match parseZone zone with
          | some offset =>
            some { year := year, month := month, day := day, hour := hour, minute := minute,
                   second := second, nano := nano, offset := offset }
          | none => none
      else none
    | _, _, _, _, _, _ => none
  | _ => none

/-! ## Codec layer: the request and response types -/

/-- The declared fields of `CreateJourneyRequest`. -/
inductive Field where
  | Name | TrackingEnabled | StartDate | EndDate
deriving DecidableEq, Repr

/-- The `json:"..."` tag of each field of `CreateJourneyRequest`. -/
def Field.tag : Field → String
  | .Name => "name"
  | .TrackingEnabled => "tracking_enabled"
  | .StartDate => "start_date"
  | .EndDate => "end_date"

/-- The fields in declaration order. -/
def Field.all : List Field :=
  [.Name, .TrackingEnabled, .StartDate, .EndDate]

/-- Modelled from the spec: the declared field an input key names ("maps to the
value's field by name"), if any. -/
def fieldOfKey (key : String) : Option Field :=
  Field.all.find? (fun f => f.tag = key)

/-- The zero value of `CreateJourneyRequest`. -/
def CreateJourneyRequest.zero : CreateJourneyRequest :=
  { Name := "", TrackingEnabled := false, StartDate := Time.zero, EndDate := Time.zero }

/-- Modelled from the spec: a JSON value as a Go string; only a JSON string
converts. -/
def asString : Json → Option String
  | .str s => some s
  | _ => none

/-- Modelled from the spec: a JSON value as a Go bool; only a JSON boolean
converts. -/
def asBool : Json → Option Bool
  | .bool b => some b
  | _ => none

/-- Modelled from the spec: a JSON value as a timestamp; only a JSON string
holding a date-time converts. -/
def asTime : Json → Option Time
  | .str s => parseTime s
  | _ => none

/-- Modelled from the spec: stores one input member: a declared field takes the value converted to its
type (a value that does not convert is a `DecodeError`), an unknown key is
ignored. -/
def setMember (req : CreateJourneyRequest) (key : String) (v : Json) :
    Except Error CreateJourneyRequest :=
  match fieldOfKey key with
  | none => .ok req
  | some .Name =>
    match asString v with
    | some s => .ok { req with Name := s }
    | none => .error (Error.decode "name: not a string")
  | some .TrackingEnabled =>
    match asBool v with
    | some b => .ok { req with TrackingEnabled := b }
    | none => .error (Error.decode "tracking_enabled: not a boolean")
  | some .StartDate =>
    match asTime v with
    | some t => .ok { req with StartDate := t }
    | none => .error (Error.decode "start_date: not a timestamp")
  | some .EndDate =>
    match asTime v with
    | some t => .ok { req with EndDate := t }
    | none => .error (Error.decode "end_date: not a timestamp")

/-- Modelled from the spec: stores the members of an object in input order,
starting from `req`. -/
def decodeMembers : List (String × Json) → CreateJourneyRequest →
    Except Error CreateJourneyRequest
  | [], req => .ok req
  | (key, v) :: rest, req =>
    match setMember req key v with
    | .ok req1 => decodeMembers rest req1
    | .error e => .error e

/-- Modelled from the spec: whether the target type "permits" an empty body,
which the spec grants to a type with "all-optional fields": the request body
of the spec marks none of its four fields optional. -/
def emptyBodyPermitted : Bool := false

/-- Modelled from the spec: `Decode` of the input codec for
`CreateJourneyRequest`. Text that is not well-formed, a value that is not an
object and a field that does not convert are `DecodeError`s; declared fields
map by name, unknown fields are ignored, missing fields keep the zero value.
An empty body would decode to the zero value for a target type that permits
it and is a `DecodeError` otherwise, as it is here. -/
def Decode (body : String) : Except Error CreateJourneyRequest :=
  if body = "" ∧ emptyBodyPermitted = true then .ok CreateJourneyRequest.zero
  else
    match parseJson body with
    | some (.obj members) => decodeMembers members CreateJourneyRequest.zero
    | some _ => .error (Error.decode "not an object")
    | none => .error (Error.decode "malformed JSON")

/-- The value an object gives a key: that of its last member with that key. -/
def lastValue (key : String) : List (String × Json) → Option Json
  | [] => none
  | (k, v) :: rest =>
    match lastValue key rest with
    | some x => some x
    | none => if k = key then some v else none

/-- The field-by-name reading of decoding, in the words of the spec: a field is
the converted value of its key, and the zero value when the key is missing. -/
def fieldValue {α : Type} (key : String) (members : List (String × Json))
    (convert : Json → Option α) (zero : α) : α :=
  match lastValue key members with
  | some v => (convert v).getD zero
  | none => zero

/-- Whether a member fits the request shape: an undeclared key always does, a
declared one when its value converts to the type of its field. -/
def memberConverts (key : String) (v : Json) : Bool :=
  match fieldOfKey key with
  | none => true
  | some .Name => (asString v).isSome
  | some .TrackingEnabled => (asBool v).isSome
  | some .StartDate => (asTime v).isSome
  | some .EndDate => (asTime v).isSome

/-- Modelled from the spec: one character inside a JSON string literal: quote
and backslash escaped, a control character as a `\u00XX` escape. -/
def escapeChar (c : Char) : List Char :=
  if c = '"' then ['\\', '"']
  else if c = '\\' then ['\\', '\\']
  else if c.toNat < 32 then
    ['\\', 'u', '0', '0', hexDigit (c.toNat / 16), hexDigit (c.toNat % 16)]
  else [c]

/-- Modelled from the spec: the characters of a string with quotes, backslashes
and control characters escaped. -/
def escape : List Char → List Char
  | [] => []
  | c :: cs => escapeChar c ++ escape cs

/-- Modelled from the spec: a string as a JSON string literal. -/
def encodeString (s : String) : List Char :=
  '"' :: (escape s.data ++ ['"'])

/-- Modelled from the spec: `Encode` of the output codec for
`*CreateJourneyResponse`: the object with the one member `id`, and `null` for
a nil response. No value of this type is unrepresentable, so it never returns
an `EncodeError`. -/
def Encode (resp : Option CreateJourneyResponse) : Except Error String :=
  match resp with
  | none => .ok "null"
  | some r => .ok (String.mk ("\x7b\"id\":".data ++ encodeString r.Id ++ ['\x7d']))

/-! ## Operation adapter -/

/-- Modelled from the spec: an incoming HTTP request, as far as router and
adapter read it. -/
structure http.Request where
  method : String
  path : String
  contentType : String
  body : String
deriving DecidableEq, Repr

/-- Modelled from the spec: the one response written for a request. -/
structure http.Response where
  status : Nat
  contentType : String
  body : String
deriving DecidableEq, Repr

/-- Modelled from the spec: the "one fixed content type" of the codec layer. -/
def jsonContentType : String := "application/json"

/-- Modelled from the spec: a "machine-readable error body (error kind +
message)". -/
def errorBody (kind msg : String) : String :=
  String.mk ("\x7b\"kind\":".data ++ encodeString kind ++ ",\"message\":".data ++
    encodeString msg ++ ['\x7d'])

/-- Modelled from the spec: the response for an error of the pipeline. -/
def errorResponse (status : Nat) (kind msg : String) : http.Response :=
  { status := status, contentType := jsonContentType, body := errorBody kind msg }

/-- Modelled from the spec: the status a handler error maps to: its intended
status when it is tagged with one, 500 otherwise. -/
def statusOfError : Error → Nat
  | .handler (some status) _ => status
  | _ => 500

/-- How serving a request ends: the world after it and either a panic or the
response written. -/
structure ServeExit where
  world : World
  result : Except Panic http.Response

/-- Modelled from the spec: the operation adapter, the protocol-level handler
made by `rpc.NewOperation(rpc.ConsumeJson(rpc.ReturnJson(h)))`. In this order:
content type (415), body size against `maxBody` (413), decoding (400), the
handler, its error (the tagged status or 500), encoding (500 on failure) and
the 200 response. -/
def rpc.Operation.ServeHTTP (op : rpc.Operation) (maxBody : Nat) (ctx : Context)
    (r : http.Request) (w : World) : ServeExit :=
  if r.contentType ≠ jsonContentType then
    { world := w, result := .ok (errorResponse 415 "UnsupportedMediaType" "unsupported content type") }
  else if maxBody < r.body.utf8ByteSize then
    { world := w, result := .ok (errorResponse 413 "BodyTooLarge" "request body too large") }
  else
    match Decode r.body with
    | .error _ =>
      { world := w, result := .ok (errorResponse 400 "DecodeError" "malformed request body") }
    | .ok req =>
      let out := op.handler.inner.inner.Handle ctx (some req) w
      match out.result with
      | .error p => { world := out.world, result := .error p }
      | .ok (_, some err) =>
        { world := out.world,
          result := .ok (errorResponse (statusOfError err) "HandlerError" "request failed") }
      | .ok (resp, none) =>
        match Encode resp with
        | .error _ =>
          { world := out.world,
            result := .ok (errorResponse 500 "EncodeError" "internal server error") }
        | .ok body =>
          { world := out.world,
            result := .ok { status := 200, contentType := jsonContentType, body := body } }

/-- Modelled from the spec: serving through the router: 404 for an unmatched
request, 405 for a known path under another method, the operation otherwise. -/
def rest.Api.ServeHTTP (api : rest.Api) (maxBody : Nat) (ctx : Context)
    (r : http.Request) (w : World) : ServeExit :=
  match api.Dispatch r.method r.path with
  | .ok op => op.ServeHTTP maxBody ctx r w
  | .error (Error.methodNotAllowed _ _) =>
    { world := w, result := .ok (errorResponse 405 "MethodNotAllowed" "method not allowed") }
  | .error _ =>
    { world := w, result := .ok (errorResponse 404 "NotFound" "not found") }

/-- The number of `Handle` invocations a world has seen: every invocation that
gets past its nil checks hands exactly one "Handling Request" record to the
logger. -/
def World.handled (w : World) : Nat :=
  (w.log.filter (fun r => r.msg = "Handling Request")).length

/-- A generator for examples: the n-th identifier is sixteen bytes `n mod 256`. -/
def counterUuids (n : Nat) : UUID :=
  { bytes := List.replicate 16 ⟨n % 256, Nat.mod_lt n (by decide)⟩, size := by simp }

/-- A world for examples: nothing drawn, nothing logged. -/
def World.start : World :=
  { uuids := counterUuids, drawn := 0, log := [] }

/-- The body of the spec's example request. -/
def tripBody : String :=
  "\x7b\"name\":\"Trip\",\"tracking_enabled\":true,\"start_date\":\"2024-01-01T00:00:00Z\",\"end_date\":\"2024-01-10T00:00:00Z\"\x7d"

/-! ## Lemmas on the textual form of identifiers -/

theorem list_of_length_sixteen {α : Type} (l : List α) (h : l.length = 16) :
    ∃ a0 a1 a2 a3 a4 a5 a6 a7 a8 a9 a10 a11 a12 a13 a14 a15, l = [a0, a1, a2, a3, a4, a5, a6, a7, a8, a9, a10, a11, a12, a13, a14, a15] := by
  rcases l with _ | ⟨a0, l⟩
  · simp at h
  rcases l with _ | ⟨a1, l⟩
  · simp at h
  rcases l with _ | ⟨a2, l⟩
  · simp at h
  rcases l with _ | ⟨a3, l⟩
  · simp at h
  rcases l with _ | ⟨a4, l⟩
  · simp at h
  rcases l with _ | ⟨a5, l⟩
  · simp at h
  rcases l with _ | ⟨a6, l⟩
  · simp at h
  rcases l with _ | ⟨a7, l⟩
  · simp at h
  rcases l with _ | ⟨a8, l⟩
  · simp at h
  rcases l with _ | ⟨a9, l⟩
  · simp at h
  rcases l with _ | ⟨a10, l⟩
  · simp at h
  rcases l with _ | ⟨a11, l⟩
  · simp at h
  rcases l with _ | ⟨a12, l⟩
  · simp at h
  rcases l with _ | ⟨a13, l⟩
  · simp at h
  rcases l with _ | ⟨a14, l⟩
  · simp at h
  rcases l with _ | ⟨a15, l⟩
  · simp at h
  rcases l with _ | ⟨b, l⟩
  · exact ⟨a0, a1, a2, a3, a4, a5, a6, a7, a8, a9, a10, a11, a12, a13, a14, a15, rfl⟩
  · simp at h

theorem hexDigit_lower : ∀ n, n < 16 → isLowerHex (hexDigit n) = true := by
  decide

theorem hexDigit_inj : ∀ m, m < 16 → ∀ n, n < 16 → hexDigit m = hexDigit n → m = n := by
  decide

theorem byte_eq_of_digits (a b : Fin 256) (hi : hexDigit (a.val / 16) = hexDigit (b.val / 16))
    (lo : hexDigit (a.val % 16) = hexDigit (b.val % 16)) : a = b := by
  have h1 := hexDigit_inj _ (by omega) _ (by omega) hi
  have h2 := hexDigit_inj _ (Nat.mod_lt _ (by decide)) _ (Nat.mod_lt _ (by decide)) lo
  apply Fin.ext
  omega

theorem uuid_text_valid (u : UUID) : validUuidText u.String := by
  obtain ⟨bytes, size⟩ := u
  obtain ⟨a0, a1, a2, a3, a4, a5, a6, a7, a8, a9, a10, a11, a12, a13, a14, a15, rfl⟩ := list_of_length_sixteen bytes size
  refine ⟨by simp [UUID.String, encodeHex, hexEncode, String.length], ?_⟩
  intro i hi
  have lower : ∀ n, n < 16 → isLowerHex (hexDigit n) = true := hexDigit_lower
  interval_cases i <;>
    simp [UUID.String, encodeHex, hexEncode] <;>
    apply lower <;> omega

theorem uuid_text_injective (u v : UUID) (h : u.String = v.String) : u = v := by
  obtain ⟨bytes, size⟩ := u
  obtain ⟨bytes1, size1⟩ := v
  obtain ⟨a0, a1, a2, a3, a4, a5, a6, a7, a8, a9, a10, a11, a12, a13, a14, a15, rfl⟩ := list_of_length_sixteen bytes size
  obtain ⟨b0, b1, b2, b3, b4, b5, b6, b7, b8, b9, b10, b11, b12, b13, b14, b15, rfl⟩ := list_of_length_sixteen bytes1 size1
  have h := congrArg String.data h
  simp only [UUID.String, encodeHex, hexEncode, List.take, List.drop,
    List.cons_append, List.nil_append, List.cons.injEq, and_true, true_and] at h
  simp only [UUID.mk.injEq, List.cons.injEq, and_true]
  obtain ⟨x0, y0, x1, y1, x2, y2, x3, y3, x4, y4, x5, y5, x6, y6, x7, y7, x8, y8, x9, y9, x10, y10, x11, y11, x12, y12, x13, y13, x14, y14, x15, y15⟩ := h
  exact ⟨byte_eq_of_digits _ _ x0 y0, byte_eq_of_digits _ _ x1 y1, byte_eq_of_digits _ _ x2 y2, byte_eq_of_digits _ _ x3 y3, byte_eq_of_digits _ _ x4 y4, byte_eq_of_digits _ _ x5 y5, byte_eq_of_digits _ _ x6 y6, byte_eq_of_digits _ _ x7 y7, byte_eq_of_digits _ _ x8 y8, byte_eq_of_digits _ _ x9 y9, byte_eq_of_digits _ _ x10 y10, byte_eq_of_digits _ _ x11 y11, byte_eq_of_digits _ _ x12 y12, byte_eq_of_digits _ _ x13 y13, byte_eq_of_digits _ _ x14 y14, byte_eq_of_digits _ _ x15 y15⟩

/-! ## The handler -/

/-- C1: for every non-nil request (any name, flag and timestamps), `Handle` of a
handler holding a logger, such as the one `CreateJourney` builds, returns a
non-nil response and a nil error; no request makes it fail. -/
theorem handle_returns_response_and_nil_error (l : Logger) (ctx : Context)
    (r : CreateJourneyRequest) (w : World) :
    (∃ resp : CreateJourneyResponse,
      (CreateJourneyHandler.Handle { log := some l } ctx (some r) w).result
        = .ok (some resp, none)) ∧
    (∃ resp : CreateJourneyResponse,
      (CreateJourneyHandler.Handle { log := humus.Logger "endpoint" } ctx (some r) w).result
        = .ok (some resp, none)) :=
  ⟨⟨_, rfl⟩, ⟨_, rfl⟩⟩

/-- C2: the `Id` of the response is the textual form of the identifier the
generator yields on that call, and that text is a syntactically valid UUID:
36 characters, hyphens at positions 8, 13, 18 and 23, lowercase hexadecimal
digits elsewhere. -/
theorem handle_id_is_canonical_uuid_text (l : Logger) (ctx : Context)
    (r : CreateJourneyRequest) (w : World) :
    (CreateJourneyHandler.Handle { log := some l } ctx (some r) w).result
      = .ok (some { Id := (uuid.New w).1.String }, none) ∧
    (uuid.New w).1 = w.uuids w.drawn ∧
    validUuidText (uuid.New w).1.String :=
  ⟨rfl, rfl, uuid_text_valid _⟩

/-- C3: two calls of `Handle`, with any requests (equal ones included), return
the textual forms of the generator outputs of their own calls, a call advances
the generator by one so that the next call draws the next output, and the two
ids differ whenever the two generator outputs differ. -/
theorem handle_ids_differ (l : Logger) (ctx1 ctx2 : Context) (r1 r2 : CreateJourneyRequest)
    (w1 w2 : World) (h : w1.uuids w1.drawn ≠ w2.uuids w2.drawn) :
    ∃ resp1 resp2 : CreateJourneyResponse,
      (CreateJourneyHandler.Handle { log := some l } ctx1 (some r1) w1).result
        = .ok (some resp1, none) ∧
      (CreateJourneyHandler.Handle { log := some l } ctx2 (some r2) w2).result
        = .ok (some resp2, none) ∧
      resp1.Id = (w1.uuids w1.drawn).String ∧
      resp2.Id = (w2.uuids w2.drawn).String ∧
      resp1.Id ≠ resp2.Id ∧
      (CreateJourneyHandler.Handle { log := some l } ctx1 (some r1) w1).world.drawn
        = w1.drawn + 1 ∧
      (CreateJourneyHandler.Handle { log := some l } ctx1 (some r1) w1).world.uuids
        = w1.uuids :=
  ⟨_, _, rfl, rfl, rfl, rfl, fun e => h (uuid_text_injective _ _ e), rfl, rfl⟩

/-- Witness for C3: two successive calls with the same request on the counting
generator. -/
theorem handle_ids_differ_witness :
    World.start.uuids World.start.drawn
      ≠ (CreateJourneyHandler.Handle { log := some { name := "endpoint" } } { done := false }
          (some CreateJourneyRequest.zero) World.start).world.uuids
        (CreateJourneyHandler.Handle { log := some { name := "endpoint" } } { done := false }
          (some CreateJourneyRequest.zero) World.start).world.drawn ∧
    ∃ resp1 resp2 : CreateJourneyResponse,
      (CreateJourneyHandler.Handle { log := some { name := "endpoint" } } { done := false }
        (some CreateJourneyRequest.zero) World.start).result = .ok (some resp1, none) ∧
      (CreateJourneyHandler.Handle { log := some { name := "endpoint" } } { done := false }
        (some CreateJourneyRequest.zero)
        (CreateJourneyHandler.Handle { log := some { name := "endpoint" } } { done := false }
          (some CreateJourneyRequest.zero) World.start).world).result = .ok (some resp2, none) ∧
      resp1.Id ≠ resp2.Id :=
  ⟨by decide,
    let ⟨a, b, h1, h2, _, _, h5, _, _⟩ :=
      handle_ids_differ { name := "endpoint" } { done := false } { done := false }
        CreateJourneyRequest.zero CreateJourneyRequest.zero World.start
        (CreateJourneyHandler.Handle { log := some { name := "endpoint" } } { done := false }
          (some CreateJourneyRequest.zero) World.start).world (by decide)
    ⟨a, b, h1, h2, h5⟩⟩

/-- C9: `Handle` leaves its receiver as it found it, for every handler, request
and world, a panicking call included; and its result does not depend on the
records earlier invocations left in the log. -/
theorem handle_leaves_handler_unchanged (h : CreateJourneyHandler) (ctx : Context)
    (req : Option CreateJourneyRequest) (w : World) (history : List LogRecord) :
    (h.Handle ctx req w).self = h ∧
    (h.Handle ctx req w).self.log = h.log ∧
    (h.Handle ctx req { w with log := history }).result = (h.Handle ctx req w).result := by
  cases req <;> cases h with | mk log => cases log <;> exact ⟨rfl, rfl, rfl⟩

/-- C10: for two non-nil requests and the same identifier drawn, `Handle`
returns equal responses and nil errors; the request shows only in the record
appended to the log, whose one attribute is `Name` with the value `req.Name`. -/
theorem handle_ignores_request_contents (l : Logger) (ctx : Context)
    (r1 r2 : CreateJourneyRequest) (w1 w2 : World)
    (same : w1.uuids w1.drawn = w2.uuids w2.drawn) :
    (CreateJourneyHandler.Handle { log := some l } ctx (some r1) w1).result
      = (CreateJourneyHandler.Handle { log := some l } ctx (some r2) w2).result ∧
    (CreateJourneyHandler.Handle { log := some l } ctx (some r1) w1).result
      = .ok (some { Id := (w1.uuids w1.drawn).String }, none) ∧
    (CreateJourneyHandler.Handle { log := some l } ctx (some r1) w1).world.log
      = w1.log ++ [{ logger := l, level := Level.info, msg := "Handling Request",
                     attrs := [("Name", r1.Name)] }] ∧
    (CreateJourneyHandler.Handle { log := some l } ctx (some r1) w1).world.drawn
      = w1.drawn + 1 ∧
    (CreateJourneyHandler.Handle { log := some l } ctx (some r1) w1).world.uuids
      = w1.uuids := by
  refine ⟨?_, rfl, rfl, rfl, rfl⟩
  have e1 : (CreateJourneyHandler.Handle { log := some l } ctx (some r1) w1).result
      = .ok (some { Id := (w1.uuids w1.drawn).String }, none) := rfl
  have e2 : (CreateJourneyHandler.Handle { log := some l } ctx (some r2) w2).result
      = .ok (some { Id := (w2.uuids w2.drawn).String }, none) := rfl
  rw [e1, e2, same]

/-- Witness for C10: two different requests served from the same world. -/
theorem handle_ignores_request_contents_witness :
    World.start.uuids World.start.drawn = World.start.uuids World.start.drawn ∧
    (CreateJourneyHandler.Handle { log := some { name := "endpoint" } } { done := false }
        (some CreateJourneyRequest.zero) World.start).result
      = (CreateJourneyHandler.Handle { log := some { name := "endpoint" } } { done := false }
        (some { CreateJourneyRequest.zero with Name := "Trip", TrackingEnabled := true })
        World.start).result :=
  ⟨rfl,
    (handle_ignores_request_contents { name := "endpoint" } { done := false }
      CreateJourneyRequest.zero
      { CreateJourneyRequest.zero with Name := "Trip", TrackingEnabled := true }
      World.start World.start rfl).1⟩

/-! ## Registration -/

theorem registered_of_dispatch (api : rest.Api) (method path : String) (op : rpc.Operation)
    (h : api.Dispatch method path = .ok op) : api.registered method path = true := by
  unfold rest.Api.Dispatch at h
  cases found : api.routes.find? (fun e => e.method = method ∧ e.path = path) with
  | none =>
    rw [found] at h
    simp only at h
    split at h <;> cases h
  | some e =>
    have hp := List.find?_some found
    have hm := List.mem_of_find?_eq_some found
    unfold rest.Api.registered
    exact List.any_eq_true.mpr ⟨e, hm, hp⟩

theorem create_journey_result (api : rest.Api) :
    CreateJourney api =
      { api := (api.Route http.MethodPost "/v1/journey" createJourneyOperation).1,
        panic := (api.Route http.MethodPost "/v1/journey" createJourneyOperation).2.map
          Panic.value } := by
  simp only [CreateJourney, createJourneyOperation]
  generalize api.Route http.MethodPost "/v1/journey"
    (rpc.NewOperation (rpc.ConsumeJson (rpc.ReturnJson { log := humus.Logger "endpoint" }))) = res
  obtain ⟨api1, err⟩ := res
  cases err <;> rfl

/-- C4: on an api with an empty route table `CreateJourney` returns normally and
leaves a table of exactly one entry, (POST, "/v1/journey"), bound to the
operation that consumes and returns JSON around a `CreateJourneyHandler`; no
other pair is registered, so (GET, "/v1/journey") and (POST, "/v1/unknown")
dispatch to no operation and are answered 405 and 404 without touching the
world; the same table is that of the api `app.Init` returns when
`rest.NewApi` hands it an empty one. -/
theorem create_journey_registers_one_route (api : rest.Api) (NewApi : String → String → rest.Api)
    (ctx : Context) (cfg : app.Config) (empty : api.routes = [])
    (fresh : (NewApi cfg.OpenApi.Title cfg.OpenApi.Version).routes = []) :
    (CreateJourney api).panic = none ∧
    (CreateJourney api).api.routes =
      [{ method := "POST", path := "/v1/journey",
         op := rpc.NewOperation (rpc.ConsumeJson (rpc.ReturnJson
           { log := humus.Logger "endpoint" })) }] ∧
    (CreateJourney api).api.Dispatch "POST" "/v1/journey" =
      .ok (rpc.NewOperation (rpc.ConsumeJson (rpc.ReturnJson
        { log := humus.Logger "endpoint" }))) ∧
    (∀ method path : String, (CreateJourney api).api.registered method path = true ↔
      (method = "POST" ∧ path = "/v1/journey")) ∧
    (CreateJourney api).api.registered "GET" "/v1/journey" = false ∧
    (CreateJourney api).api.registered "POST" "/v1/unknown" = false ∧
    (CreateJourney api).api.Dispatch "GET" "/v1/journey" =
      .error (Error.methodNotAllowed "GET" "/v1/journey") ∧
    (CreateJourney api).api.Dispatch "POST" "/v1/unknown" =
      .error (Error.notFound "POST" "/v1/unknown") ∧
    (∀ (maxBody : Nat) (contentType body : String) (w : World),
      ((CreateJourney api).api.ServeHTTP maxBody ctx
          { method := "GET", path := "/v1/journey", contentType := contentType, body := body }
          w).result
        = .ok (errorResponse 405 "MethodNotAllowed" "method not allowed") ∧
      ((CreateJourney api).api.ServeHTTP maxBody ctx
          { method := "POST", path := "/v1/unknown", contentType := contentType, body := body }
          w).result
        = .ok (errorResponse 404 "NotFound" "not found")) ∧
    ∃ api1 : rest.Api,
      app.Init NewApi ctx cfg = .ok (api1, none) ∧
      api1.routes =
        [{ method := "POST", path := "/v1/journey",
           op := rpc.NewOperation (rpc.ConsumeJson (rpc.ReturnJson
             { log := humus.Logger "endpoint" })) }] := by
  have key : ∀ a : rest.Api, a.routes = [] →
      CreateJourney a =
        SetupExit.mk (rest.Api.mk a.title a.version
          [rest.Entry.mk "POST" "/v1/journey" (rpc.NewOperation (rpc.ConsumeJson
            (rpc.ReturnJson { log := humus.Logger "endpoint" })))]) none := by
    intro a ha
    simp [CreateJourney, rest.Api.Route, rest.Api.registered, ha, http.MethodPost]
  rw [key api empty]
  refine ⟨rfl, rfl, ?_, ?_, ?_, ?_, ?_, ?_, ?_, ?_⟩
  · simp [rest.Api.Dispatch]
  · intro method path
    simp only [rest.Api.registered, List.any_cons, List.any_nil, Bool.or_false,
      decide_eq_true_eq]
    exact ⟨fun h => ⟨h.1.symm, h.2.symm⟩, fun h => ⟨h.1.symm, h.2.symm⟩⟩
  · simp [rest.Api.registered]
  · simp [rest.Api.registered]
  · simp [rest.Api.Dispatch]
  · simp [rest.Api.Dispatch]
  · intro maxBody contentType body w
    constructor <;> simp [rest.Api.ServeHTTP, rest.Api.Dispatch]
  · refine ⟨rest.Api.mk (NewApi cfg.OpenApi.Title cfg.OpenApi.Version).title
      (NewApi cfg.OpenApi.Title cfg.OpenApi.Version).version
      [rest.Entry.mk "POST" "/v1/journey" (rpc.NewOperation (rpc.ConsumeJson
        (rpc.ReturnJson { log := humus.Logger "endpoint" })))], ?_, rfl⟩
    simp [app.Init, key _ fresh]

/-- Witness for C4: the api with no routes and a constructor that makes it. -/
theorem create_journey_registers_one_route_witness :
    (rest.Api.mk "Journeys" "v1" []).routes = [] ∧
    (CreateJourney (rest.Api.mk "Journeys" "v1" [])).api.routes =
      [{ method := "POST", path := "/v1/journey",
         op := rpc.NewOperation (rpc.ConsumeJson (rpc.ReturnJson
           { log := humus.Logger "endpoint" })) }] :=
  ⟨rfl,
    (create_journey_registers_one_route (rest.Api.mk "Journeys" "v1" [])
      (fun title version => rest.Api.mk title version []) { done := false }
      { OpenApi := { Title := "Journeys", Version := "v1" } } rfl rfl).2.1⟩

/-- C5: for every api, `CreateJourney` returns normally exactly when `api.Route`
returns a nil error and otherwise panics with that very error, and a second
`CreateJourney` on the same api always panics with the route conflict and
changes nothing; for every api on which (POST, "/v1/journey") is already bound
to an operation, `api.Route` returns the route conflict, `CreateJourney` panics
with it, the api is left as it was and the pair still dispatches to the
operation bound first. -/
theorem create_journey_panics_on_route_error (any api : rest.Api) (op0 : rpc.Operation)
    (bound : api.Dispatch "POST" "/v1/journey" = .ok op0) :
    ((CreateJourney any).panic = none ↔
      (any.Route http.MethodPost "/v1/journey" createJourneyOperation).2 = none) ∧
    (CreateJourney any).panic =
      (any.Route http.MethodPost "/v1/journey" createJourneyOperation).2.map Panic.value ∧
    (CreateJourney (CreateJourney any).api).panic =
      some (Panic.value (Error.routeConflict "POST" "/v1/journey")) ∧
    (CreateJourney (CreateJourney any).api).api = (CreateJourney any).api ∧
    (api.Route http.MethodPost "/v1/journey" createJourneyOperation).2 =
      some (Error.routeConflict "POST" "/v1/journey") ∧
    (CreateJourney api).panic = some (Panic.value (Error.routeConflict "POST" "/v1/journey")) ∧
    (CreateJourney api).api = api ∧
    (CreateJourney api).api.Dispatch "POST" "/v1/journey" = .ok op0 := by
  have conflict : ∀ a : rest.Api, a.registered "POST" "/v1/journey" = true →
      CreateJourney a =
        { api := a, panic := some (Panic.value (Error.routeConflict "POST" "/v1/journey")) } := by
    intro a reg
    rw [create_journey_result]
    simp [rest.Api.Route, http.MethodPost, reg]
  have after : (CreateJourney any).api.registered "POST" "/v1/journey" = true := by
    rw [create_journey_result]
    by_cases reg : any.registered "POST" "/v1/journey" = true
    · simp [rest.Api.Route, http.MethodPost, reg]
    · simp only [rest.Api.Route, http.MethodPost, reg]
      simp [rest.Api.registered]
  have reg := registered_of_dispatch api _ _ op0 bound
  have once := conflict api reg
  refine ⟨?_, ?_, ?_, ?_, ?_, ?_, ?_, ?_⟩
  · rw [create_journey_result]
    cases (any.Route http.MethodPost "/v1/journey" createJourneyOperation).2 <;> simp
  · rw [create_journey_result]
  · rw [conflict _ after]
  · rw [conflict _ after]
  · simp [rest.Api.Route, http.MethodPost, reg]
  · rw [once]
  · rw [once]
  · rw [once]
    exact bound

/-- Witness for C5: an api whose (POST, "/v1/journey") is bound to an operation
around a handler without a logger. -/
theorem create_journey_panics_on_route_error_witness :
    (rest.Api.mk "Journeys" "v1"
        [{ method := "POST", path := "/v1/journey",
           op := rpc.NewOperation (rpc.ConsumeJson (rpc.ReturnJson { log := none })) }]).Dispatch
      "POST" "/v1/journey"
      = .ok (rpc.NewOperation (rpc.ConsumeJson (rpc.ReturnJson { log := none }))) ∧
    (CreateJourney (rest.Api.mk "Journeys" "v1"
        [{ method := "POST", path := "/v1/journey",
           op := rpc.NewOperation (rpc.ConsumeJson (rpc.ReturnJson { log := none })) }])).panic
      = some (Panic.value (Error.routeConflict "POST" "/v1/journey")) ∧
    (CreateJourney (rest.Api.mk "Journeys" "v1"
        [{ method := "POST", path := "/v1/journey",
           op := rpc.NewOperation (rpc.ConsumeJson (rpc.ReturnJson { log := none })) }])).api.Dispatch
      "POST" "/v1/journey"
      = .ok (rpc.NewOperation (rpc.ConsumeJson (rpc.ReturnJson { log := none }))) :=
  ⟨by decide,
    (create_journey_panics_on_route_error (rest.Api.mk "Journeys" "v1" [])
      (rest.Api.mk "Journeys" "v1"
        [{ method := "POST", path := "/v1/journey",
           op := rpc.NewOperation (rpc.ConsumeJson (rpc.ReturnJson { log := none })) }])
      (rpc.NewOperation (rpc.ConsumeJson (rpc.ReturnJson { log := none })))
      (by decide)).2.2.2.2.2.1,
    (create_journey_panics_on_route_error (rest.Api.mk "Journeys" "v1" [])
      (rest.Api.mk "Journeys" "v1"
        [{ method := "POST", path := "/v1/journey",
           op := rpc.NewOperation (rpc.ConsumeJson (rpc.ReturnJson { log := none })) }])
      (rpc.NewOperation (rpc.ConsumeJson (rpc.ReturnJson { log := none })))
      (by decide)).2.2.2.2.2.2.2⟩

/-! ## Decoding -/

theorem fieldOfKey_eq (k : String) :
    fieldOfKey k =
      if k = "name" then some Field.Name
      else if k = "tracking_enabled" then some Field.TrackingEnabled
      else if k = "start_date" then some Field.StartDate
      else if k = "end_date" then some Field.EndDate
      else none := by
  simp only [fieldOfKey, Field.all, List.find?, Field.tag]
  by_cases h1 : k = "name"
  · subst h1; rfl
  by_cases h2 : k = "tracking_enabled"
  · subst h2; rfl
  by_cases h3 : k = "start_date"
  · subst h3; rfl
  by_cases h4 : k = "end_date"
  · subst h4; rfl
  have e1 : decide ("name" = k) = false := by simpa using fun h => h1 h.symm
  have e2 : decide ("tracking_enabled" = k) = false := by simpa using fun h => h2 h.symm
  have e3 : decide ("start_date" = k) = false := by simpa using fun h => h3 h.symm
  have e4 : decide ("end_date" = k) = false := by simpa using fun h => h4 h.symm
  simp [h1, h2, h3, h4, e1, e2, e3, e4]

theorem lastValue_mem (key : String) (ms : List (String × Json)) (x : Json)
    (h : lastValue key ms = some x) : (key, x) ∈ ms := by
  induction ms with
  | nil => simp [lastValue] at h
  | cons m rest ih =>
    obtain ⟨k, v⟩ := m
    simp only [lastValue] at h
    cases hr : lastValue key rest with
    | some y =>
      rw [hr] at h
      simp only [Option.some.injEq] at h
      subst h
      exact List.mem_cons_of_mem _ (ih hr)
    | none =>
      rw [hr] at h
      simp only at h
      split at h
      · rename_i hk
        simp only [Option.some.injEq] at h
        subst h hk
        exact List.mem_cons_self _ _
      · cases h


theorem fieldValue_cons_ne {α : Type} (key k : String) (v : Json) (rest : List (String × Json))
    (c : Json → Option α) (z : α) (h : k ≠ key) :
    fieldValue key ((k, v) :: rest) c z = fieldValue key rest c z := by
  simp only [fieldValue, lastValue]
  cases lastValue key rest <;> simp [h]

theorem fieldValue_cons_eq {α : Type} (key : String) (v : Json) (rest : List (String × Json))
    (c : Json → Option α) (z a : α) (hv : c v = some a)
    (hrest : ∀ x, lastValue key rest = some x → (c x).isSome = true) :
    fieldValue key ((key, v) :: rest) c z = fieldValue key rest c a := by
  simp only [fieldValue, lastValue]
  cases hr : lastValue key rest with
  | some x =>
    have hx := hrest x hr
    cases hc : c x with
    | none => simp [hc] at hx
    | some y => simp [hc]
  | none => simp [hv]

theorem decodeMembers_spec (ms : List (String × Json)) :
    ∀ req0 : CreateJourneyRequest, (∀ m ∈ ms, memberConverts m.1 m.2 = true) →
      decodeMembers ms req0 = .ok
        { Name := fieldValue "name" ms asString req0.Name,
          TrackingEnabled := fieldValue "tracking_enabled" ms asBool req0.TrackingEnabled,
          StartDate := fieldValue "start_date" ms asTime req0.StartDate,
          EndDate := fieldValue "end_date" ms asTime req0.EndDate } := by
  induction ms with
  | nil => intro req0 _; rfl
  | cons m rest ih =>
    obtain ⟨k, v⟩ := m
    intro req0 shape
    have shapeRest : ∀ m ∈ rest, memberConverts m.1 m.2 = true :=
      fun m hm => shape m (List.mem_cons_of_mem _ hm)
    have conv : memberConverts k v = true := shape (k, v) (List.mem_cons_self _ _)
    have last : ∀ key x, lastValue key rest = some x → memberConverts key x = true :=
      fun key x hx => shapeRest (key, x) (lastValue_mem key rest x hx)
    have lastName := last "name"
    have lastFlag := last "tracking_enabled"
    have lastStart := last "start_date"
    have lastEnd := last "end_date"
    simp only [memberConverts, fieldOfKey_eq] at conv lastName lastFlag lastStart lastEnd
    simp only [decodeMembers, setMember, fieldOfKey_eq]
    by_cases h1 : k = "name"
    · subst h1
      simp at conv lastName
      obtain ⟨s, hs⟩ := Option.isSome_iff_exists.mp conv
      simp only [hs, ↓reduceIte]
      rw [ih _ shapeRest]
      rw [fieldValue_cons_eq "name" v rest asString req0.Name s hs lastName,
        fieldValue_cons_ne "tracking_enabled" "name" v rest asBool _ (by decide),
        fieldValue_cons_ne "start_date" "name" v rest asTime _ (by decide),
        fieldValue_cons_ne "end_date" "name" v rest asTime _ (by decide)]
    by_cases h2 : k = "tracking_enabled"
    · subst h2
      simp at conv lastFlag
      obtain ⟨b, hb⟩ := Option.isSome_iff_exists.mp conv
      simp only [hb, h1, ↓reduceIte]
      rw [ih _ shapeRest]
      rw [fieldValue_cons_eq "tracking_enabled" v rest asBool req0.TrackingEnabled b hb lastFlag,
        fieldValue_cons_ne "name" "tracking_enabled" v rest asString _ (by decide),
        fieldValue_cons_ne "start_date" "tracking_enabled" v rest asTime _ (by decide),
        fieldValue_cons_ne "end_date" "tracking_enabled" v rest asTime _ (by decide)]
    by_cases h3 : k = "start_date"
    · subst h3
      simp at conv lastStart
      obtain ⟨t, ht⟩ := Option.isSome_iff_exists.mp conv
      simp only [ht, h1, h2, ↓reduceIte]
      rw [ih _ shapeRest]
      rw [fieldValue_cons_eq "start_date" v rest asTime req0.StartDate t ht lastStart,
        fieldValue_cons_ne "name" "start_date" v rest asString _ (by decide),
        fieldValue_cons_ne "tracking_enabled" "start_date" v rest asBool _ (by decide),
        fieldValue_cons_ne "end_date" "start_date" v rest asTime _ (by decide)]
    by_cases h4 : k = "end_date"
    · subst h4
      simp at conv lastEnd
      obtain ⟨t, ht⟩ := Option.isSome_iff_exists.mp conv
      simp only [ht, h1, h2, h3, ↓reduceIte]
      rw [ih _ shapeRest]
      rw [fieldValue_cons_eq "end_date" v rest asTime req0.EndDate t ht lastEnd,
        fieldValue_cons_ne "name" "end_date" v rest asString _ (by decide),
        fieldValue_cons_ne "tracking_enabled" "end_date" v rest asBool _ (by decide),
        fieldValue_cons_ne "start_date" "end_date" v rest asTime _ (by decide)]
    simp only [h1, h2, h3, h4, ↓reduceIte]
    rw [ih _ shapeRest]
    rw [fieldValue_cons_ne "name" k v rest asString _ h1,
      fieldValue_cons_ne "tracking_enabled" k v rest asBool _ h2,
      fieldValue_cons_ne "start_date" k v rest asTime _ h3,
      fieldValue_cons_ne "end_date" k v rest asTime _ h4]


theorem decodeMembers_ignores_unknown (ms : List (String × Json)) :
    ∀ req0 : CreateJourneyRequest,
      decodeMembers (ms.filter (fun m => (fieldOfKey m.1).isSome)) req0 = decodeMembers ms req0 := by
  induction ms with
  | nil => intro req0; rfl
  | cons m rest ih =>
    obtain ⟨k, v⟩ := m
    intro req0
    cases hk : fieldOfKey k with
    | none =>
      simp only [List.filter, hk, Option.isSome_none, decodeMembers, setMember]
      exact ih req0
    | some f =>
      simp only [List.filter, hk, Option.isSome_some, decodeMembers]
      cases setMember req0 k v with
      | ok req1 => exact ih req1
      | error e => rfl

theorem lastValue_eq_none_iff (key : String) (ms : List (String × Json)) :
    lastValue key ms = none ↔ key ∉ ms.map Prod.fst := by
  induction ms with
  | nil => simp [lastValue]
  | cons m rest ih =>
    obtain ⟨k, v⟩ := m
    simp only [lastValue, List.map_cons, List.mem_cons, not_or]
    cases hr : lastValue key rest with
    | some x =>
      have hmem : key ∈ rest.map Prod.fst :=
        List.mem_map.mpr ⟨(key, x), lastValue_mem key rest x hr, rfl⟩
      constructor
      · intro h
        cases h
      · intro h
        exact absurd hmem h.2
    | none =>
      have hn := ih.mp hr
      by_cases hk : k = key
      · simp [hk]
      · have hk1 : ¬ key = k := fun h => hk h.symm
        simp [hk, hk1, hn]

theorem decode_object (body : String) (members : List (String × Json))
    (wellFormed : parseJson body = some (Json.obj members)) :
    Decode body = decodeMembers members CreateJourneyRequest.zero := by
  simp only [Decode, emptyBodyPermitted, Bool.false_eq_true, and_false, ↓reduceIte, wellFormed]

theorem decode_object_fields (body : String) (members : List (String × Json))
    (wellFormed : parseJson body = some (Json.obj members))
    (shape : ∀ m ∈ members, memberConverts m.1 m.2 = true) :
    Decode body = .ok
      { Name := fieldValue "name" members asString "",
        TrackingEnabled := fieldValue "tracking_enabled" members asBool false,
        StartDate := fieldValue "start_date" members asTime Time.zero,
        EndDate := fieldValue "end_date" members asTime Time.zero } := by
  rw [decode_object body members wellFormed, decodeMembers_spec members _ shape]
  rfl

theorem setMember_error (req : CreateJourneyRequest) (k : String) (v : Json)
    (h : memberConverts k v = false) :
    ∃ msg, setMember req k v = .error (Error.decode msg) := by
  unfold memberConverts at h
  unfold setMember
  cases hk : fieldOfKey k with
  | none => simp [hk] at h
  | some f =>
    cases f <;> simp only [hk] at h
    · cases hv : asString v with
      | none => exact ⟨_, rfl⟩
      | some x => rw [hv] at h; cases h
    · cases hv : asBool v with
      | none => exact ⟨_, rfl⟩
      | some x => rw [hv] at h; cases h
    · cases hv : asTime v with
      | none => exact ⟨_, rfl⟩
      | some x => rw [hv] at h; cases h
    · cases hv : asTime v with
      | none => exact ⟨_, rfl⟩
      | some x => rw [hv] at h; cases h

theorem setMember_ok (req : CreateJourneyRequest) (k : String) (v : Json)
    (h : memberConverts k v = true) :
    ∃ req1, setMember req k v = .ok req1 := by
  unfold memberConverts at h
  unfold setMember
  cases hk : fieldOfKey k with
  | none => exact ⟨_, rfl⟩
  | some f =>
    cases f <;> simp only [hk] at h <;>
      obtain ⟨x, hx⟩ := Option.isSome_iff_exists.mp h <;>
      simp only [hx] <;> exact ⟨_, rfl⟩

theorem decodeMembers_error (ms : List (String × Json)) :
    ∀ req0 : CreateJourneyRequest, (∃ m ∈ ms, memberConverts m.1 m.2 = false) →
      ∃ msg, decodeMembers ms req0 = .error (Error.decode msg) := by
  induction ms with
  | nil =>
    intro req0 h
    obtain ⟨m, hm, _⟩ := h
    cases hm
  | cons m rest ih =>
    obtain ⟨k, v⟩ := m
    intro req0 h
    cases hc : memberConverts k v with
    | false =>
      obtain ⟨msg, hmsg⟩ := setMember_error req0 k v hc
      exact ⟨msg, by simp only [decodeMembers, hmsg]⟩
    | true =>
      obtain ⟨req1, hreq⟩ := setMember_ok req0 k v hc
      obtain ⟨m, hm, hbad⟩ := h
      have inRest : m ∈ rest := by
        rcases List.mem_cons.mp hm with e | e
        · subst e
          rw [hc] at hbad
          cases hbad
        · exact e
      obtain ⟨msg, hmsg⟩ := ih req1 ⟨m, inRest, hbad⟩
      exact ⟨msg, by simp only [decodeMembers, hreq, hmsg]⟩

/-- C6: the declared fields are the four tagged "name", "tracking_enabled",
"start_date" and "end_date"; a body that is a well-formed JSON object either
has a member under a declared key that does not convert, and decoding is a
`DecodeError`, or decodes to the request whose `Name`, `TrackingEnabled`,
`StartDate` and `EndDate` are the converted values of those four keys, the zero
value for a key that is absent; members under other keys change nothing. -/
theorem decode_maps_declared_fields (body : String) (members : List (String × Json))
    (wellFormed : parseJson body = some (Json.obj members)) :
    Field.all.map Field.tag = ["name", "tracking_enabled", "start_date", "end_date"] ∧
    (((∀ m ∈ members, memberConverts m.1 m.2 = true) ∧
        Decode body = .ok
          { Name := fieldValue "name" members asString "",
            TrackingEnabled := fieldValue "tracking_enabled" members asBool false,
            StartDate := fieldValue "start_date" members asTime Time.zero,
            EndDate := fieldValue "end_date" members asTime Time.zero }) ∨
      ((∃ m ∈ members, memberConverts m.1 m.2 = false) ∧
        ∃ msg, Decode body = .error (Error.decode msg))) ∧
    (∀ key, lastValue key members = none ↔ key ∉ members.map Prod.fst) ∧
    Decode body =
      decodeMembers (members.filter (fun m => (fieldOfKey m.1).isSome))
        CreateJourneyRequest.zero := by
  refine ⟨rfl, ?_, fun key => lastValue_eq_none_iff key members, ?_⟩
  · by_cases shape : ∀ m ∈ members, memberConverts m.1 m.2 = true
    · exact Or.inl ⟨shape, decode_object_fields body members wellFormed shape⟩
    · have bad : ∃ m ∈ members, memberConverts m.1 m.2 = false := by
        by_contra none
        apply shape
        intro m hm
        cases hc : memberConverts m.1 m.2 with
        | true => rfl
        | false => exact absurd ⟨m, hm, hc⟩ none
      obtain ⟨msg, hmsg⟩ := decodeMembers_error members CreateJourneyRequest.zero bad
      exact Or.inr ⟨bad, msg, by rw [decode_object body members wellFormed, hmsg]⟩
  · rw [decode_object body members wellFormed, decodeMembers_ignores_unknown]

/-- Witness for C6: the example body of the spec, with a member under an
undeclared key added. -/
theorem decode_maps_declared_fields_witness :
    parseJson "\x7b\"name\":\"Trip\",\"tracking_enabled\":true,\"start_date\":\"2024-01-01T00:00:00Z\",\"end_date\":\"2024-01-10T00:00:00Z\"\x7d"
      = some (Json.obj
        [("name", Json.str "Trip"), ("tracking_enabled", Json.bool true),
         ("start_date", Json.str "2024-01-01T00:00:00Z"),
         ("end_date", Json.str "2024-01-10T00:00:00Z")]) ∧
    Decode "\x7b\"name\":\"Trip\",\"tracking_enabled\":true,\"start_date\":\"2024-01-01T00:00:00Z\",\"end_date\":\"2024-01-10T00:00:00Z\"\x7d"
      = .ok
        { Name := "Trip", TrackingEnabled := true,
          StartDate := { year := 2024, month := 1, day := 1, hour := 0, minute := 0,
                         second := 0, nano := 0, offset := 0 },
          EndDate := { year := 2024, month := 1, day := 10, hour := 0, minute := 0,
                       second := 0, nano := 0, offset := 0 } } :=
  ⟨rfl,
    (decode_maps_declared_fields
      "\x7b\"name\":\"Trip\",\"tracking_enabled\":true,\"start_date\":\"2024-01-01T00:00:00Z\",\"end_date\":\"2024-01-10T00:00:00Z\"\x7d"
      [("name", Json.str "Trip"), ("tracking_enabled", Json.bool true),
       ("start_date", Json.str "2024-01-01T00:00:00Z"),
       ("end_date", Json.str "2024-01-10T00:00:00Z")] rfl).2.1.elim
      (fun h => h.2.trans (by decide))
      (fun h => absurd h.1 (by decide))⟩

/-! ## The operation adapter -/

theorem handled_after_handle (l : Logger) (ctx : Context) (r : CreateJourneyRequest)
    (w : World) :
    (CreateJourneyHandler.Handle { log := some l } ctx (some r) w).world.handled
      = w.handled + 1 := by
  simp [CreateJourneyHandler.Handle, uuid.New, Logger.InfoContext, World.handled,
    List.filter_append]

/-- C8: a request to the operation whose body is not well-formed JSON, the
empty body included, and that reaches decoding (JSON content type, body within
the maximum size) makes decoding return a `DecodeError` and is answered 400;
and whatever its content type and the maximum size, `Handle` is not invoked:
the world is left as it was and the invocation count, which every invocation
raises by one, stays what it was, 0 if it was 0. -/
theorem malformed_body_is_rejected (op : rpc.Operation) (maxBody : Nat) (ctx : Context)
    (r : http.Request) (w : World)
    (json : r.contentType = jsonContentType) (fits : r.body.utf8ByteSize ≤ maxBody)
    (malformed : parseJson r.body = none) :
    Decode r.body = .error (Error.decode "malformed JSON") ∧
    (op.ServeHTTP maxBody ctx r w).result
      = .ok (errorResponse 400 "DecodeError" "malformed request body") ∧
    (errorResponse 400 "DecodeError" "malformed request body").status = 400 ∧
    (∀ (limit : Nat) (contentType : String),
      (op.ServeHTTP limit ctx { r with contentType := contentType } w).world = w) ∧
    (op.ServeHTTP maxBody ctx r w).world.handled = w.handled ∧
    (∀ (l : Logger) (req : CreateJourneyRequest),
      (CreateJourneyHandler.Handle { log := some l } ctx (some req) w).world.handled
        = w.handled + 1) := by
  have dec : Decode r.body = .error (Error.decode "malformed JSON") := by
    simp only [Decode, emptyBodyPermitted, Bool.false_eq_true, and_false, ↓reduceIte, malformed]
  have unchanged : ∀ (limit : Nat) (contentType : String),
      (op.ServeHTTP limit ctx { r with contentType := contentType } w).world = w := by
    intro limit contentType
    simp only [rpc.Operation.ServeHTTP, dec]
    split
    · rfl
    · split <;> rfl
  refine ⟨dec, ?_, rfl, unchanged, ?_, fun l req => handled_after_handle l ctx req w⟩
  · simp only [rpc.Operation.ServeHTTP, dec, json, ne_eq, not_true_eq_false, ↓reduceIte,
      Nat.not_lt.mpr fits]
  · have h := unchanged maxBody r.contentType
    rw [show ({ r with contentType := r.contentType } : http.Request) = r from rfl] at h
    rw [h]

/-- Witness for C8: an unterminated object sent to the operation `CreateJourney`
registers, in a world that has seen no invocation. -/
theorem malformed_body_is_rejected_witness :
    parseJson "\x7b\"name\":" = none ∧
    (createJourneyOperation.ServeHTTP 1024 { done := false }
      { method := "POST", path := "/v1/journey", contentType := "application/json",
        body := "\x7b\"name\":" } World.start).result
      = .ok (errorResponse 400 "DecodeError" "malformed request body") ∧
    (createJourneyOperation.ServeHTTP 1024 { done := false }
      { method := "POST", path := "/v1/journey", contentType := "application/json",
        body := "\x7b\"name\":" } World.start).world.handled = 0 :=
  ⟨rfl,
    (malformed_body_is_rejected createJourneyOperation 1024 { done := false }
      { method := "POST", path := "/v1/journey", contentType := "application/json",
        body := "\x7b\"name\":" } World.start rfl (by decide) rfl).2.1,
    (malformed_body_is_rejected createJourneyOperation 1024 { done := false }
      { method := "POST", path := "/v1/journey", contentType := "application/json",
        body := "\x7b\"name\":" } World.start rfl (by decide) rfl).2.2.2.2.1⟩

/-- Counterexample to C7 as stated: two successive runs on the example body
of the spec write different bytes, because each run draws its own identifier. -/
theorem encoded_response_differs_counterexample :
    (createJourneyOperation.ServeHTTP 1024 { done := false }
      { method := "POST", path := "/v1/journey", contentType := "application/json",
        body := tripBody } World.start).result
      = .ok { status := 200, contentType := "application/json",
              body := "\x7b\"id\":\"00000000-0000-0000-0000-000000000000\"\x7d" } ∧
    (createJourneyOperation.ServeHTTP 1024 { done := false }
      { method := "POST", path := "/v1/journey", contentType := "application/json",
        body := tripBody }
      (createJourneyOperation.ServeHTTP 1024 { done := false }
        { method := "POST", path := "/v1/journey", contentType := "application/json",
          body := tripBody } World.start).world).result
      = .ok { status := 200, contentType := "application/json",
              body := "\x7b\"id\":\"01010101-0101-0101-0101-010101010101\"\x7d" } ∧
    (createJourneyOperation.ServeHTTP 1024 { done := false }
      { method := "POST", path := "/v1/journey", contentType := "application/json",
        body := tripBody } World.start).result
      ≠ (createJourneyOperation.ServeHTTP 1024 { done := false }
      { method := "POST", path := "/v1/journey", contentType := "application/json",
        body := tripBody }
      (createJourneyOperation.ServeHTTP 1024 { done := false }
        { method := "POST", path := "/v1/journey", contentType := "application/json",
          body := tripBody } World.start).world).result := by
  refine ⟨?_, ?_, ?_⟩ <;> decide

theorem hexDigit_mem : ∀ n, n < 16 → hexDigit n ∈ hextable := by
  decide

theorem escapeChar_plain : ∀ c ∈ '-' :: hextable, escapeChar c = [c] := by
  decide

theorem hexEncode_mem (l : List (Fin 256)) : ∀ c ∈ hexEncode l, c ∈ '-' :: hextable := by
  induction l with
  | nil => intro c hc; cases hc
  | cons b bs ih =>
    intro c hc
    simp only [hexEncode, List.mem_cons] at hc
    rcases hc with e | e | e
    · subst e
      exact List.mem_cons_of_mem _ (hexDigit_mem _ (by omega))
    · subst e
      exact List.mem_cons_of_mem _ (hexDigit_mem _ (Nat.mod_lt _ (by decide)))
    · exact ih c e

theorem encodeHex_mem (u : UUID) : ∀ c ∈ encodeHex u, c ∈ '-' :: hextable := by
  intro c hc
  simp only [encodeHex, List.mem_append, List.mem_cons] at hc
  rcases hc with e | e | e | e | e | e | e | e | e
  · exact hexEncode_mem _ c e
  · subst e; exact List.mem_cons_self _ _
  · exact hexEncode_mem _ c e
  · subst e; exact List.mem_cons_self _ _
  · exact hexEncode_mem _ c e
  · subst e; exact List.mem_cons_self _ _
  · exact hexEncode_mem _ c e
  · subst e; exact List.mem_cons_self _ _
  · exact hexEncode_mem _ c e

theorem escape_plain (l : List Char) (h : ∀ c ∈ l, escapeChar c = [c]) : escape l = l := by
  induction l with
  | nil => rfl
  | cons c cs ih =>
    simp only [escape, h c (List.mem_cons_self _ _), List.singleton_append,
      ih (fun d hd => h d (List.mem_cons_of_mem _ hd))]

theorem encodeString_uuid_text (u : UUID) :
    encodeString u.String = '"' :: (encodeHex u ++ ['"']) := by
  simp only [encodeString, UUID.String]
  rw [escape_plain _ (fun c hc => escapeChar_plain c (encodeHex_mem u c hc))]

theorem encoded_id_injective (u v : UUID)
    (h : "\x7b\"id\":".data ++ encodeString u.String ++ ['\x7d']
      = "\x7b\"id\":".data ++ encodeString v.String ++ ['\x7d']) : u = v := by
  rw [encodeString_uuid_text, encodeString_uuid_text] at h
  have h1 := List.append_cancel_right h
  have h2 := List.append_cancel_left h1
  have h3 := List.append_cancel_right (List.cons.inj h2).2
  exact uuid_text_injective u v (congrArg String.mk h3)

/-- C7, amended: for a well-formed JSON body that fits the request shape, a run
of decoding, `Handle` and encoding writes status 200 and the encoding of the
response whose `Id` is the text of the identifier drawn in that run; two runs
on the same body write the same response, byte for byte, exactly when they
draw the same identifier. -/
theorem encoded_response_stable_for_same_identifier (l : Logger) (maxBody : Nat)
    (ctx1 ctx2 : Context) (r : http.Request) (members : List (String × Json)) (w1 w2 : World)
    (json : r.contentType = jsonContentType) (fits : r.body.utf8ByteSize ≤ maxBody)
    (wellFormed : parseJson r.body = some (Json.obj members))
    (shape : ∀ m ∈ members, memberConverts m.1 m.2 = true) :
    (((rpc.NewOperation (rpc.ConsumeJson (rpc.ReturnJson { log := some l }))).ServeHTTP
        maxBody ctx1 r w1).result
      = ((rpc.NewOperation (rpc.ConsumeJson (rpc.ReturnJson { log := some l }))).ServeHTTP
        maxBody ctx2 r w2).result
      ↔ w1.uuids w1.drawn = w2.uuids w2.drawn) ∧
    ∃ bytes : String,
      Encode (some { Id := (w1.uuids w1.drawn).String }) = .ok bytes ∧
      ((rpc.NewOperation (rpc.ConsumeJson (rpc.ReturnJson { log := some l }))).ServeHTTP
          maxBody ctx1 r w1).result
        = .ok { status := 200, contentType := jsonContentType, body := bytes } := by
  have dec := decode_object_fields r.body members wellFormed shape
  have run : ∀ (ctx : Context) (w : World),
      ((rpc.NewOperation (rpc.ConsumeJson (rpc.ReturnJson { log := some l }))).ServeHTTP
          maxBody ctx r w).result
        = .ok { status := 200, contentType := jsonContentType,
                body := String.mk ("\x7b\"id\":".data ++
                  encodeString (w.uuids w.drawn).String ++ ['\x7d']) } := by
    intro ctx w
    simp only [rpc.Operation.ServeHTTP, dec, json, ne_eq, not_true_eq_false, ↓reduceIte,
      Nat.not_lt.mpr fits]
    rfl
  refine ⟨?_, _, rfl, run ctx1 w1⟩
  rw [run ctx1 w1, run ctx2 w2]
  constructor
  · intro h
    have h1 : String.mk ("\x7b\"id\":".data ++ encodeString (w1.uuids w1.drawn).String ++ ['\x7d'])
        = String.mk ("\x7b\"id\":".data ++ encodeString (w2.uuids w2.drawn).String ++ ['\x7d']) :=
      congrArg http.Response.body (Except.ok.inj h)
    exact encoded_id_injective _ _ (congrArg String.data h1)
  · intro h
    rw [h]

/-- Witness for C7: the example body served from two worlds that differ in
their logs and in the number of identifiers drawn. -/
theorem encoded_response_stable_for_same_identifier_witness :
    parseJson tripBody = some (Json.obj
      [("name", Json.str "Trip"), ("tracking_enabled", Json.bool true),
       ("start_date", Json.str "2024-01-01T00:00:00Z"),
       ("end_date", Json.str "2024-01-10T00:00:00Z")]) ∧
    ((rpc.NewOperation (rpc.ConsumeJson (rpc.ReturnJson
        { log := some { name := "endpoint" } }))).ServeHTTP 1024 { done := false }
        { method := "POST", path := "/v1/journey", contentType := "application/json",
          body := tripBody } World.start).result
      = ((rpc.NewOperation (rpc.ConsumeJson (rpc.ReturnJson
        { log := some { name := "endpoint" } }))).ServeHTTP 1024 { done := true }
        { method := "POST", path := "/v1/journey", contentType := "application/json",
          body := tripBody }
        { uuids := counterUuids, drawn := 256,
          log := [{ logger := { name := "endpoint" }, level := Level.info,
                    msg := "Handling Request", attrs := [("Name", "Trip")] }] }).result :=
  ⟨rfl,
    (encoded_response_stable_for_same_identifier { name := "endpoint" } 1024 { done := false }
      { done := true }
      { method := "POST", path := "/v1/journey", contentType := "application/json",
        body := tripBody }
      [("name", Json.str "Trip"), ("tracking_enabled", Json.bool true),
       ("start_date", Json.str "2024-01-01T00:00:00Z"),
       ("end_date", Json.str "2024-01-10T00:00:00Z")]
      World.start
      { uuids := counterUuids, drawn := 256,
        log := [{ logger := { name := "endpoint" }, level := Level.info,
                  msg := "Handling Request", attrs := [("Name", "Trip")] }] }
      rfl (by decide) rfl (by decide)).1.mpr (by decide)⟩

end Journeys
